import Mathlib

/-!
Verification of the event-to-structured-log mapping engine of
`tracing-stackdriver` (file `src/event_formatter.rs`), as a shallow
embedding in Lean 4.

The embedding follows `EventFormatter::format_event` and the
`EventFieldVisitor` `Visit` implementation line by line.  Parts of the
repository that are referenced from `event_formatter.rs` but whose files are
not available (`google.rs` with `LogSeverity`, `serializers.rs` with
`SerializableSpan`/`SerializableContext`/`SourceLocation`, the layer/writer
plumbing) as well as external crates (`inflector`'s `to_camel_case`,
`serde_json::Number::from_f64`) are modelled from the specification; each
such definition carries a doc comment starting with `Modelled from the
spec:`.
-/

set_option maxRecDepth 4000
set_option linter.unreachableTactic false
set_option linter.unusedTactic false

namespace TracingStackdriver

/-- JSON number, as stored by `serde_json::Value::Number`: an `i64`, a `u64`
or a finite `f64` (the finite doubles form a subset of the rationals, so the
payload of the float case is modelled as a rational). -/
inductive JNumber where
  | ofInt (i : Int)
  | ofNat (n : Nat)
  | ofFloat (q : Rat)

/-- Model of `serde_json::Value`. -/
inductive Json where
  | num (n : JNumber)
  | bool (b : Bool)
  | str (s : String)
  | arr (xs : List Json)
  | obj (kvs : List (String × Json))

/-- An IEEE-754 double, abstracted to what the formatter inspects: whether it
is finite (in which case its exact rational value is kept) or one of the
three non-finite shapes. -/
inductive F64 where
  | finite (q : Rat)
  | nan
  | posInf
  | negInf

/-- Modelled from the spec: `serde_json::Number::from_f64` (external crate)
returns a number exactly for finite inputs and `None` for NaN and the two
infinities. -/
def numberFromF64 : F64 → Option JNumber
  | .finite q => some (.ofFloat q)
  | .nan => none
  | .posInf => none
  | .negInf => none

/-- The typed values a `tracing` event field can be recorded with, one
constructor per `Visit` method implemented by `EventFieldVisitor`
(`record_f64`, `record_i64`, `record_u64`, `record_bool`, `record_str`,
`record_error`, `record_debug`).  For `record_error` and `record_debug` the
textual rendering (`value.to_string()` resp. `format!("{:?}", value)`) is
performed outside the formatter, so the constructor carries the rendered
string. -/
inductive FieldInput where
  | f64 (v : F64)
  | i64 (v : Int)
  | u64 (v : Nat)
  | bool (b : Bool)
  | str (s : String)
  | error (rendered : String)
  | debug (rendered : String)

/-- Lexicographic comparison of character lists by scalar value (the order
`BTreeMap<String, _>` iterates in). -/
def charListLt : List Char → List Char → Bool
  | [], [] => false
  | [], _ :: _ => true
  | _ :: _, [] => false
  | a :: as, b :: bs =>
    if a.toNat < b.toNat then true
    else if b.toNat < a.toNat then false
    else charListLt as bs

/-- String order of the `BTreeMap` keys. -/
def strLt (a b : String) : Bool := charListLt a.data b.data

/-- Insertion into a `serde_json::Map` (a `BTreeMap` ordered by key):
inserting an existing key replaces its value in place, a new key is placed
at its ordered position. -/
def mapInsert {α : Type} : List (String × α) → String → α → List (String × α)
  | [], k, v => [(k, v)]
  | (k₀, v₀) :: rest, k, v =>
    if k = k₀ then (k, v) :: rest
    else if strLt k k₀ then (k, v) :: (k₀, v₀) :: rest
    else (k₀, v₀) :: mapInsert rest k v

/-- ASCII lower-casing of one character (the only case mapping relevant to
the formatter's inputs). -/
def charLower (c : Char) : Char :=
  if c.isUpper then Char.ofNat (c.toNat + 32) else c

/-- ASCII upper-casing of one character. -/
def charUpper (c : Char) : Char :=
  if c.isLower then Char.ofNat (c.toNat - 32) else c

/-- ASCII lower-casing of a whole string (`str::to_lowercase` on the ASCII
severity names). -/
def lowerString (s : String) : String := ⟨s.data.map charLower⟩

/-- `str::starts_with` on the model (prefix test on the character lists). -/
def strStartsWith (s p : String) : Bool := p.data.isPrefixOf s.data

/-- One step of `EventFieldVisitor`: how a single recorded field enters the
visitor's map (`self.0.insert(...)`), including the `record_f64` coercion of
non-finite floats to the integer `0` and the `record_debug` special cases:
`log.`/`event.`-prefixed metadata fields are dropped and a field named
`message` is stored under the key `message`.  The `match` on the field name
in `record_debug` is Rust string matching, which is exact (case-sensitive). -/
def recordField (m : List (String × Json)) (name : String) : FieldInput → List (String × Json)
  | .f64 v =>
    mapInsert m name (Json.num (match numberFromF64 v with
      | some n => n
      | none => JNumber.ofInt 0))
  | .i64 v => mapInsert m name (Json.num (JNumber.ofInt v))
  | .u64 v => mapInsert m name (Json.num (JNumber.ofNat v))
  | .bool b => mapInsert m name (Json.bool b)
  | .str s => mapInsert m name (Json.str s)
  | .error s => mapInsert m name (Json.str s)
  | .debug s =>
    if strStartsWith name "log." then m
    else if strStartsWith name "event." then m
    else if name = "message" then mapInsert m "message" (Json.str s)
    else mapInsert m name (Json.str s)

/-- The instrumentation levels of `tracing_core`. -/
inductive Level where
  | trace
  | debug
  | info
  | warn
  | error
deriving DecidableEq

/-- Modelled from the spec: the provider severity enumeration of
`google.rs` (not under `src/`), §3: closed enumeration DEFAULT, DEBUG, INFO,
NOTICE, WARNING, ERROR, CRITICAL, ALERT, EMERGENCY. -/
inductive LogSeverity where
  | default
  | debug
  | info
  | notice
  | warning
  | error
  | critical
  | alert
  | emergency
deriving DecidableEq

/-- Modelled from the spec: `LogSeverity` serialization (uppercase provider
names, §3). -/
def severityString : LogSeverity → String
  | .default => "DEFAULT"
  | .debug => "DEBUG"
  | .info => "INFO"
  | .notice => "NOTICE"
  | .warning => "WARNING"
  | .error => "ERROR"
  | .critical => "CRITICAL"
  | .alert => "ALERT"
  | .emergency => "EMERGENCY"

/-- Modelled from the spec: `From<&Level> for LogSeverity` of `google.rs`
(not under `src/`), §4.1: the fixed table trace→DEBUG, debug→DEBUG,
info→INFO, warn→WARNING, error→ERROR. -/
def severityFromLevel : Level → LogSeverity
  | .trace => .debug
  | .debug => .debug
  | .info => .info
  | .warn => .warning
  | .error => .error

/-- Modelled from the spec: case-insensitive parse of a severity override
string (`google.rs`, not under `src/`), §4.1: parse case-insensitively into
the enumeration, defaulting to DEFAULT on an unrecognized string. -/
def parseSeverity (s : String) : LogSeverity :=
  let l := lowerString s
  if l = "default" then .default
  else if l = "debug" then .debug
  else if l = "info" then .info
  else if l = "notice" then .notice
  else if l = "warning" then .warning
  else if l = "error" then .error
  else if l = "critical" then .critical
  else if l = "alert" then .alert
  else if l = "emergency" then .emergency
  else .default

/-- Modelled from the spec: `From<serde_json::Value> for LogSeverity`
(`google.rs`, not under `src/`): a string override is parsed
case-insensitively, anything unrecognized resolves to DEFAULT and never to
an error (§4.1, §7). -/
def severityFromJson : Json → LogSeverity
  | .str s => parseSeverity s
  | _ => .default

/-- The snake/kebab separator characters of §4.3. -/
def isSepChar (c : Char) : Bool := c = '_' || c = '-'

/-- Split a character list into its snake/kebab segments; always returns at
least one (possibly empty) segment. -/
def splitSegs : List Char → List (List Char)
  | [] => [[]]
  | c :: rest =>
    let segs := splitSegs rest
    if isSepChar c then [] :: segs
    else
      match segs with
      | [] => [[c]]
      | s :: ss => (c :: s) :: ss

/-- Lower-case the leading character of a segment. -/
def lowerFirst : List Char → List Char
  | [] => []
  | c :: cs => charLower c :: cs

/-- Capitalize a segment: upper-case its leading character. -/
def upperFirst : List Char → List Char
  | [] => []
  | c :: cs => charUpper c :: cs

/-- Modelled from the spec: the camel-casing key transform performed by the
external `inflector` crate's `to_camel_case`, per §4.3: a pure lexical
transform, snake/kebab segments joined, first segment lower-cased,
subsequent segments capitalized. -/
def camelChars (cs : List Char) : List Char :=
  match splitSegs cs with
  | [] => []
  | s :: rest => lowerFirst s ++ (rest.map upperFirst).flatten

/-- Modelled from the spec: `inflector::Inflector::to_camel_case` on keys
(§4.3). -/
def toCamelCase (s : String) : String := ⟨camelChars s.data⟩

/-- A key already in camel case: it contains no snake/kebab separator and
does not start with an upper-case character. -/
def isCamelCaseKey (s : String) : Bool :=
  s.data.all (fun c => !isSepChar c) &&
    (match s.data with
     | [] => true
     | c :: _ => !c.isUpper)

/-- OpenTelemetry `SpanContext`: trace id, span id, sampled flag and the
remote/local distinction, as read through `span_context()` in the trace
correlation block. -/
structure SpanContext where
  trace_id : String
  span_id : String
  sampled : Bool
  is_remote : Bool

/-- The `tracing_opentelemetry::OtelData` extension as read by the
formatter: the parent context (`parent_cx`; `none` models
`!parent_cx.has_active_span()`) and the builder's possibly not yet assigned
span id (`otel_data.builder.span_id`). -/
structure OtelData where
  parent_cx : Option SpanContext
  builder_span_id : Option String

/-- A registered span, as far as the formatter reads it: its name, its
caller-supplied fields and the optional `OtelData` stored in its extension
slot. -/
structure Span where
  name : String
  fields : List (String × Json)
  otel : Option OtelData

/-- The formatting context handed to `format_event`: the span registry
(`context.span(id)`), the ambient current span (`context.lookup_current()`),
the ambient current span's ancestor chain, outermost first (what
`SerializableContext::new(context)` serializes), and the ambient current
OpenTelemetry span context (`opentelemetry::Context::current()`; `none`
models `!current_cx.has_active_span()`). -/
structure FmtContext where
  registry : Nat → Option Span
  current : Option Span
  scope : List Span
  otelCurrent : Option SpanContext

/-- One `tracing` event as consumed by the formatter. -/
structure Event where
  level : Level
  target : String
  file : Option String
  line : Option Nat
  parent : Option Nat
  fields : List (String × FieldInput)

/-- `crate::CloudTraceConfiguration`. -/
structure CloudTraceConfiguration where
  project_id : String

/-- The `EventFormatter` configuration (`include_source_location`, and the
optional cloud trace configuration of the `opentelemetry` feature). -/
structure EventFormatter where
  include_source_location : Bool
  cloud_trace_configuration : Option CloudTraceConfiguration

/-- `event.record(&mut visitor)`: fold every recorded field through
`EventFieldVisitor`, starting from the empty map. -/
def collectFields (ev : Event) : List (String × Json) :=
  ev.fields.foldl (fun m kv => recordField m kv.1 kv.2) []

/-- `visitor.0.remove("severity").map(LogSeverity::from).unwrap_or_else(||
LogSeverity::from(meta.level()))`: the severity override field takes
precedence over the instrumentation level. -/
def severityOf (ev : Event) : LogSeverity :=
  match List.lookup "severity" (collectFields ev) with
  | some v => severityFromJson v
  | none => severityFromLevel ev.level

/-- `BTreeMap::remove` of one key, on the assoc-list model (keys are unique
in the visitor map, so filtering the key out coincides with `remove`). -/
def eraseKey (m : List (String × Json)) (k : String) : List (String × Json) :=
  m.filter (fun kv => kv.1 ≠ k)

/-- `key.splitn(2, '.')`: the part of the key before the first `.`, and the
remainder after it if a `.` is present. -/
def splitFirstAux : List Char → List Char → String × Option String
  | [], acc => (⟨acc.reverse⟩, none)
  | '.' :: rest, acc => (⟨acc.reverse⟩, some ⟨rest⟩)
  | c :: rest, acc => splitFirstAux rest (c :: acc)

/-- Split a key at its first `.` separator (the two results of
`key.splitn(2, '.')`). -/
def splitFirst (k : String) : String × Option String := splitFirstAux k.data []

/-- JSON string escaping of one character (quote, backslash and the common
control characters). -/
def escapeChar (c : Char) : String :=
  if c = '"' then "\\\""
  else if c = '\\' then "\\\\"
  else if c = '\n' then "\\n"
  else if c = '\t' then "\\t"
  else if c = '\r' then "\\r"
  else String.singleton c

/-- JSON string escaping. -/
def escapeString (s : String) : String :=
  s.data.foldl (fun acc c => acc ++ escapeChar c) ""

mutual

/-- Serialization of one JSON value to its compact text (the output of
`serde_json`); float formatting is abstracted by the rational's textual
form. -/
def renderJson : Json → String
  | .num (.ofInt i) => toString i
  | .num (.ofNat n) => toString n
  | .num (.ofFloat q) => toString q
  | .bool b => if b then "true" else "false"
  | .str s => "\"" ++ escapeString s ++ "\""
  | .arr xs => "[" ++ renderJsonList xs ++ "]"
  | .obj kvs => "\x7b" ++ renderJsonObj kvs ++ "\x7d"

/-- Comma-separated rendering of an array's elements. -/
def renderJsonList : List Json → String
  | [] => ""
  | [x] => renderJson x
  | x :: xs => renderJson x ++ "," ++ renderJsonList xs

/-- Comma-separated rendering of an object's entries. -/
def renderJsonObj : List (String × Json) → String
  | [] => ""
  | [(k, v)] => "\"" ++ escapeString k ++ "\":" ++ renderJson v
  | (k, v) :: rest =>
    "\"" ++ escapeString k ++ "\":" ++ renderJson v ++ "," ++ renderJsonObj rest

end

/-- `match value { Value::String(value) => value, _ => value.to_string() }`,
the stringification applied in the `labels.*` and `insert_id` arms. -/
def stringifyValue : Json → String
  | .str s => s
  | v => renderJson v

/-- The five arms of the routing `match` on `splitn(2) at the dot character` in the
source loop, in source order: `(Some("http_request"), Some(request_key))`,
`(Some("labels"), Some(label_key))`, `(Some("insert_id"), None)`,
`(Some("message"), None)`, and the two catch-all arms (which have identical
bodies). -/
inductive RouteArm where
  | httpRequest (request_key : String)
  | labelsArm (label_key : String)
  | insertId
  | messageArm
  | other
deriving DecidableEq

/-- Which arm of the routing `match` a key selects, matching on
`splitFirst k` exactly as the source matches on `splitn(2) at the dot character`. -/
def routeArmOf (k : String) : RouteArm :=
  match splitFirst k with
  | ("http_request", some request_key) => .httpRequest request_key
  | ("labels", some label_key) => .labelsArm label_key
  | ("insert_id", none) => .insertId
  | ("message", none) => .messageArm
  | _ => .other

/-- The accumulator of the routing loop: the entries written directly to the
serializer, and the two nested `BTreeMap`s `http_request` and `labels`. -/
structure RouteAcc where
  entries : List (String × Json)
  http : List (String × Json)
  labels : List (String × String)

/-- The entries one field contributes directly to the serializer: nothing
for the `http_request.*` and `labels.*` arms (those only feed the nested
maps), the stringified value under the provider insert-id key for
`insert_id`, the unchanged value under `message` for `message`, and the
unchanged value under the camel-cased key otherwise. -/
def stepEntries (kv : String × Json) : List (String × Json) :=
  match routeArmOf kv.1 with
  | .httpRequest _ => []
  | .labelsArm _ => []
  | .insertId => [("logging.googleapis.com/insertId", Json.str (stringifyValue kv.2))]
  | .messageArm => [("message", kv.2)]
  | .other => [(toCamelCase kv.1, kv.2)]

/-- The `http_request` map update one field performs:
`http_request.insert(request_key.to_camel_case(), value)` in the first arm,
no change otherwise. -/
def stepHttp (http : List (String × Json)) (kv : String × Json) : List (String × Json) :=
  match routeArmOf kv.1 with
  | .httpRequest request_key => mapInsert http (toCamelCase request_key) kv.2
  | _ => http

/-- The `labels` map update one field performs:
`labels.insert(label_key.to_camel_case(), value-as-string)` in the second
arm, no change otherwise. -/
def stepLabels (labels : List (String × String)) (kv : String × Json) : List (String × String) :=
  match routeArmOf kv.1 with
  | .labelsArm label_key => mapInsert labels (toCamelCase label_key) (stringifyValue kv.2)
  | _ => labels

/-- One iteration of `for (key, value) in visitor.0`: the single source
`match` is decomposed into its three destinations (serializer entries,
`http_request` map, `labels` map); each per-destination function carries the
corresponding arms of the source `match` verbatim. -/
def routeStep (acc : RouteAcc) (kv : String × Json) : RouteAcc :=
  ⟨acc.entries ++ stepEntries kv, stepHttp acc.http kv, stepLabels acc.labels kv⟩

/-- The whole routing loop over the fields of the visitor map. -/
def routeFields (fields : List (String × Json)) : RouteAcc :=
  fields.foldl routeStep ⟨[], [], []⟩

/-- The key a field contributes at top level, if any: the four reserved
patterns of §4.3 and the camel-cased default. -/
def routedTopKey (k : String) : Option String :=
  match routeArmOf k with
  | .httpRequest _ => none
  | .labelsArm _ => none
  | .insertId => some "logging.googleapis.com/insertId"
  | .messageArm => some "message"
  | .other => some (toCamelCase k)

/-- Whether a key matches one of the four special routing patterns of §4.3
(splitting on the first `.`). -/
def isSpecialKey (k : String) : Bool :=
  match routeArmOf k with
  | .other => false
  | _ => true

/-- The top-level keys the caller-supplied fields of an event contribute to
the document, in visitor order, after the severity override has been
consumed. -/
def fieldTopKeys (ev : Event) : List String :=
  (eraseKey (collectFields ev) "severity").filterMap (fun kv => routedTopKey kv.1)

/-- The document keys that are emitted at fixed positions by the formatter
itself (as opposed to being derived from a caller-supplied field). -/
def reservedKeys : List String :=
  ["severity", "time", "target", "httpRequest", "logging.googleapis.com/labels",
   "logging.googleapis.com/sourceLocation", "span", "spans",
   "logging.googleapis.com/trace", "logging.googleapis.com/spanId",
   "logging.googleapis.com/trace_sampled"]

/-- Modelled from the spec: `SerializableSpan` of `serializers.rs` (not
under `src/`), §4.4: each serialized span exposes its name and its
caller-defined fields. -/
def serializeSpan (s : Span) : Json :=
  Json.obj (("name", Json.str s.name) :: s.fields)

/-- Modelled from the spec: `SourceLocation` of `serializers.rs` (not under
`src/`): the metadata's file, and the line rendered as a string (as the test
mocks deserialize it). -/
def sourceLocationJson (file : String) (line : Option Nat) : Json :=
  Json.obj (("file", Json.str file) ::
    (match line with
     | some n => [("line", Json.str (toString n))]
     | none => []))

/-- The explicit-parent resolution with ambient fallback:
`event.parent().and_then(|id| context.span(id)).or_else(||
context.lookup_current())`. -/
def resolvedSpan (ctx : FmtContext) (ev : Event) : Option Span :=
  match ev.parent with
  | some id =>
    match ctx.registry id with
    | some s => some s
    | none => ctx.current
  | none => ctx.current

/-- The `span`/`spans` entries: the resolved span (or, failing that, the
last element of the serialized context) as `span`, and the serialized
context as `spans` when it is non-empty. -/
def spanEntriesOf (resolved : Option Span) (scope : List Span) : List (String × Json) :=
  let spansValue := scope.map serializeSpan
  (match resolved with
   | some s => [("span", serializeSpan s)]
   | none =>
     match spansValue.getLast? with
     | some last => [("span", last)]
     | none => []) ++
  (if spansValue.isEmpty then [] else [("spans", Json.arr spansValue)])

/-- The span-id fallback chain of the trace correlation block: the builder's
own assigned id if present; otherwise the ambient current OpenTelemetry
span's id, but only when that span is not remote. -/
def spanIdResolution (od : OtelData) (otelCurrent : Option SpanContext) : Option String :=
  match od.builder_span_id with
  | some i => some i
  | none =>
    match otelCurrent with
    | some c => if c.is_remote then none else some c.span_id
    | none => none

/-- The three Cloud Trace entries, produced only when both a span was
resolved and a cloud trace configuration is present, from the span's
`OtelData` extension: trace id and sampled flag from the parent context,
span id via `spanIdResolution`, `trace_sampled` emitted only when true. -/
def traceEntriesOf (cfg : Option CloudTraceConfiguration) (resolved : Option Span)
    (otelCurrent : Option SpanContext) : List (String × Json) :=
  match resolved, cfg with
  | some s, some config =>
    match s.otel with
    | some od =>
      let traceId := od.parent_cx.map
        (fun p => "projects/" ++ config.project_id ++ "/traces/" ++ p.trace_id)
      let sampled := od.parent_cx.map (fun p => p.sampled)
      let spanId := spanIdResolution od otelCurrent
      (match traceId with
       | some t => [("logging.googleapis.com/trace", Json.str t)]
       | none => []) ++
      (match spanId with
       | some i => [("logging.googleapis.com/spanId", Json.str i)]
       | none => []) ++
      (match sampled with
       | some true => [("logging.googleapis.com/trace_sampled", Json.bool true)]
       | _ => [])
    | none => []
  | _, _ => []

/-- `if !http_request.is_empty() { map.serialize_entry("httpRequest", ...) }`:
the nested HTTP-request object, emitted only when non-empty. -/
def httpEntry (acc : RouteAcc) : List (String × Json) :=
  if acc.http.isEmpty then [] else [("httpRequest", Json.obj acc.http)]

/-- `if !labels.is_empty() { map.serialize_entry("logging.googleapis.com/labels", ...) }`:
the nested labels object, emitted only when non-empty. -/
def labelsEntry (acc : RouteAcc) : List (String × Json) :=
  if acc.labels.isEmpty then []
  else [("logging.googleapis.com/labels",
         Json.obj (acc.labels.map (fun kv => (kv.1, Json.str kv.2))))]

/-- The source-location entry, emitted only when the configuration flag is
set and the metadata carries a file. -/
def sourceLocationEntry (fmtr : EventFormatter) (ev : Event) : List (String × Json) :=
  if fmtr.include_source_location then
    match ev.file with
    | some f => [("logging.googleapis.com/sourceLocation", sourceLocationJson f ev.line)]
    | none => []
  else []

/-- The assembled output document for one event, given the already resolved
span, ambient scope and ambient OpenTelemetry context and the rendered
timestamp: the exact entry sequence `EventFormatter::format_event` writes
through the serializer. -/
def assembleDocument (fmtr : EventFormatter) (span : Option Span) (scope : List Span)
    (otelCurrent : Option SpanContext) (ev : Event) (time : String) :
    List (String × Json) :=
  let acc := routeFields (eraseKey (collectFields ev) "severity")
  [("severity", Json.str (severityString (severityOf ev))),
   ("time", Json.str time),
   ("target", Json.str ev.target)] ++
  acc.entries ++
  httpEntry acc ++
  labelsEntry acc ++
  sourceLocationEntry fmtr ev ++
  spanEntriesOf span scope ++
  traceEntriesOf fmtr.cloud_trace_configuration span otelCurrent

/-- The output document of `EventFormatter::format_event` for one event. -/
def documentOf (fmtr : EventFormatter) (ctx : FmtContext) (ev : Event) (time : String) :
    List (String × Json) :=
  assembleDocument fmtr (resolvedSpan ctx ev) ctx.scope ctx.otelCurrent ev time

/-- The `Error` enum of `event_formatter.rs`: one variant per internal
failure kind (writer formatting fault, JSON serialization failure, sink
write error, timestamp rendering failure). -/
inductive FormatError where
  | formatting
  | serialization
  | io
  | time
deriving DecidableEq

/-- `impl From<Error> for fmt::Error`: every internal error collapses to the
information-free `fmt::Error` (modelled by `Unit`). -/
def fmtErrorOfError (_ : FormatError) : Unit := ()

/-- The fault model for one formatting call: the outcome of the timestamp
rendering (`OffsetDateTime::now_utc().format(&Rfc3339)`), a per-entry fault
for each `map.serialize_entry(key, ...)` call, a fault for
`serde_json::to_value(SerializableContext::new(context))`, a fault for
`map.end()`, and a fault for the final `writeln!(writer)`. -/
structure Faults where
  time : Except FormatError String
  entryFault : String → Option FormatError
  contextSerFault : Option FormatError
  endFault : Option FormatError
  newlineFault : Bool

/-- A fault-free call with the given rendered timestamp. -/
def noFaults (t : String) : Faults :=
  ⟨Except.ok t, fun _ => none, none, none, false⟩

/-- One `map.serialize_entry` call under the fault model: on success the
entry is appended to the serialized output. -/
def emitE (f : Faults) (acc : List (String × Json)) (kv : String × Json) :
    Except FormatError (List (String × Json)) :=
  match f.entryFault kv.1 with
  | some e => Except.error e
  | none => Except.ok (acc ++ [kv])

/-- The fallible body of `EventFormatter::format_event` (the inner, private
method returning `Result<(), Error>`): render the timestamp, then write
every entry of the document in order, any failure aborting the call; the
context serialization and `map.end()` can fail as well.  Entry contents are
those of `documentOf`. -/
def formatEventInner (fmtr : EventFormatter) (ctx : FmtContext) (ev : Event) (f : Faults) :
    Except FormatError (List (String × Json)) := do
  let time ← f.time
  (match f.contextSerFault with
   | some e => Except.error e
   | none => Except.ok ())
  let entries ← (documentOf fmtr ctx ev time).foldlM (emitE f) []
  (match f.endFault with
   | some e => Except.error e
   | none => Except.ok ())
  pure entries

/-- Modelled from the spec: the formatting boundary (`impl FormatEvent for
EventFormatter` together with the layer plumbing of `layer.rs`/`writer.rs`,
not under `src/`): the inner result is converted through `From<Error> for
fmt::Error` into an opaque failure, the newline is appended by
`writeln!(writer)`, and the buffered line reaches the caller-supplied sink
only when the whole call succeeded (§7: either a complete, valid JSON line
is written or nothing is). -/
def formatEventBoundary (fmtr : EventFormatter) (ctx : FmtContext) (ev : Event) (f : Faults) :
    Except Unit Unit × Option String :=
  match formatEventInner fmtr ctx ev f with
  | Except.error e => (Except.error (fmtErrorOfError e), none)
  | Except.ok entries =>
    if f.newlineFault then (Except.error (), none)
    else (Except.ok (), some (renderJson (Json.obj entries) ++ "\n"))

/-! ### Supporting lemmas on the routing loop -/

theorem routeStep_entries (acc : RouteAcc) (kv : String × Json) :
    (routeStep acc kv).entries = acc.entries ++ stepEntries kv := rfl

theorem foldl_routeStep_entries (l : List (String × Json)) :
    ∀ acc : RouteAcc, (l.foldl routeStep acc).entries = acc.entries ++ l.flatMap stepEntries := by
  induction l with
  | nil => intro acc; simp
  | cons kv rest ih =>
    intro acc
    simp [List.foldl_cons, ih, routeStep, List.append_assoc]

theorem routeFields_entries (l : List (String × Json)) :
    (routeFields l).entries = l.flatMap stepEntries := by
  simpa using foldl_routeStep_entries l ⟨[], [], []⟩

theorem stepEntries_keys (kv : String × Json) :
    (stepEntries kv).map Prod.fst = (routedTopKey kv.1).toList := by
  unfold stepEntries routedTopKey
  cases routeArmOf kv.1 <;> rfl

theorem flatMap_stepEntries_keys (l : List (String × Json)) :
    (l.flatMap stepEntries).map Prod.fst = l.filterMap (fun kv => routedTopKey kv.1) := by
  induction l with
  | nil => rfl
  | cons kv rest ih =>
    simp only [List.flatMap_cons, List.map_append, stepEntries_keys, ih, List.filterMap_cons]
    cases routedTopKey kv.1 <;> simp

theorem mem_routeFields_entries {l : List (String × Json)} {k : String} {v : Json}
    (hmem : (k, v) ∈ l) (harm : routeArmOf k = RouteArm.other) :
    (toCamelCase k, v) ∈ (routeFields l).entries := by
  rw [routeFields_entries]
  refine List.mem_flatMap.mpr ⟨(k, v), hmem, ?_⟩
  simp [stepEntries, harm]

theorem httpEntry_keys {acc : RouteAcc} {kv : String × Json} (h : kv ∈ httpEntry acc) :
    kv.1 = "httpRequest" := by
  unfold httpEntry at h
  split at h
  · exact absurd h (List.not_mem_nil kv)
  · simp at h; rw [h]

theorem labelsEntry_keys {acc : RouteAcc} {kv : String × Json} (h : kv ∈ labelsEntry acc) :
    kv.1 = "logging.googleapis.com/labels" := by
  unfold labelsEntry at h
  split at h
  · exact absurd h (List.not_mem_nil kv)
  · simp at h; rw [h]

theorem sourceLocationEntry_keys {fmtr : EventFormatter} {ev : Event} {kv : String × Json}
    (h : kv ∈ sourceLocationEntry fmtr ev) :
    kv.1 = "logging.googleapis.com/sourceLocation" := by
  unfold sourceLocationEntry at h
  split at h
  · split at h
    · simp at h; rw [h]
    · exact absurd h (List.not_mem_nil kv)
  · exact absurd h (List.not_mem_nil kv)

theorem spanEntriesOf_keys {r : Option Span} {sc : List Span} {kv : String × Json}
    (h : kv ∈ spanEntriesOf r sc) : kv.1 = "span" ∨ kv.1 = "spans" := by
  unfold spanEntriesOf at h
  rcases List.mem_append.mp h with h | h
  · left
    split at h
    · simp at h; rw [h]
    · split at h
      · simp at h; rw [h]
      · exact absurd h (List.not_mem_nil kv)
  · right
    split at h
    · exact absurd h (List.not_mem_nil kv)
    · simp at h; rw [h]

theorem traceEntriesOf_keys {cfg : Option CloudTraceConfiguration} {r : Option Span}
    {oc : Option SpanContext} {kv : String × Json} (h : kv ∈ traceEntriesOf cfg r oc) :
    kv.1 = "logging.googleapis.com/trace" ∨ kv.1 = "logging.googleapis.com/spanId" ∨
      kv.1 = "logging.googleapis.com/trace_sampled" := by
  unfold traceEntriesOf at h
  split at h
  · rename_i s config heq
    split at h
    · rcases List.mem_append.mp h with h | h
      · rcases List.mem_append.mp h with h | h
        · left
          split at h
          · simp at h; rw [h]
          · exact absurd h (List.not_mem_nil kv)
        · right; left
          split at h
          · simp at h; rw [h]
          · exact absurd h (List.not_mem_nil kv)
      · right; right
        split at h
        · simp at h; rw [h]
        · exact absurd h (List.not_mem_nil kv)
    · exact absurd h (List.not_mem_nil kv)
  · exact absurd h (List.not_mem_nil kv)

/-! ### Membership and key-shape helpers for the assembled document -/

theorem mem_documentOf_of_mem_entries {fmtr : EventFormatter} {ctx : FmtContext} {ev : Event}
    {time : String} {kv : String × Json}
    (h : kv ∈ (routeFields (eraseKey (collectFields ev) "severity")).entries) :
    kv ∈ documentOf fmtr ctx ev time := by
  unfold documentOf assembleDocument
  simp only [List.mem_append]
  tauto

theorem mem_documentOf_of_mem_span {fmtr : EventFormatter} {ctx : FmtContext} {ev : Event}
    {time : String} {kv : String × Json}
    (h : kv ∈ spanEntriesOf (resolvedSpan ctx ev) ctx.scope) :
    kv ∈ documentOf fmtr ctx ev time := by
  unfold documentOf assembleDocument
  simp only [List.mem_append]
  tauto

theorem mem_documentOf_of_mem_trace {fmtr : EventFormatter} {ctx : FmtContext} {ev : Event}
    {time : String} {kv : String × Json}
    (h : kv ∈ traceEntriesOf fmtr.cloud_trace_configuration (resolvedSpan ctx ev)
      ctx.otelCurrent) :
    kv ∈ documentOf fmtr ctx ev time := by
  unfold documentOf assembleDocument
  simp only [List.mem_append]
  tauto

theorem assembleDocument_parent_irrel (fmtr : EventFormatter) (sp : Option Span)
    (sc : List Span) (oc : Option SpanContext) (ev : Event) (p : Option Nat) (t : String) :
    assembleDocument fmtr sp sc oc { ev with parent := p } t
      = assembleDocument fmtr sp sc oc ev t := by
  cases ev
  rfl

theorem httpEntry_keys_sub (acc : RouteAcc) :
    ∀ k ∈ (httpEntry acc).map Prod.fst, k ∈ (["httpRequest"] : List String) := by
  intro k hk
  rcases List.mem_map.mp hk with ⟨kv, hkv, rfl⟩
  simp [httpEntry_keys hkv]

theorem labelsEntry_keys_sub (acc : RouteAcc) :
    ∀ k ∈ (labelsEntry acc).map Prod.fst,
      k ∈ (["logging.googleapis.com/labels"] : List String) := by
  intro k hk
  rcases List.mem_map.mp hk with ⟨kv, hkv, rfl⟩
  simp [labelsEntry_keys hkv]

theorem sourceLocationEntry_keys_sub (fmtr : EventFormatter) (ev : Event) :
    ∀ k ∈ (sourceLocationEntry fmtr ev).map Prod.fst,
      k ∈ (["logging.googleapis.com/sourceLocation"] : List String) := by
  intro k hk
  rcases List.mem_map.mp hk with ⟨kv, hkv, rfl⟩
  simp [sourceLocationEntry_keys hkv]

theorem spanEntriesOf_keys_sub (r : Option Span) (sc : List Span) :
    ∀ k ∈ (spanEntriesOf r sc).map Prod.fst, k ∈ (["span", "spans"] : List String) := by
  intro k hk
  rcases List.mem_map.mp hk with ⟨kv, hkv, rfl⟩
  rcases spanEntriesOf_keys hkv with h | h <;> simp [h]

theorem traceEntriesOf_keys_sub (cfg : Option CloudTraceConfiguration) (r : Option Span)
    (oc : Option SpanContext) :
    ∀ k ∈ (traceEntriesOf cfg r oc).map Prod.fst,
      k ∈ (["logging.googleapis.com/trace", "logging.googleapis.com/spanId",
        "logging.googleapis.com/trace_sampled"] : List String) := by
  intro k hk
  rcases List.mem_map.mp hk with ⟨kv, hkv, rfl⟩
  rcases traceEntriesOf_keys hkv with h | h | h <;> simp [h]

theorem httpEntry_keys_nodup (acc : RouteAcc) : ((httpEntry acc).map Prod.fst).Nodup := by
  unfold httpEntry
  split <;> simp

theorem labelsEntry_keys_nodup (acc : RouteAcc) : ((labelsEntry acc).map Prod.fst).Nodup := by
  unfold labelsEntry
  split <;> simp

theorem sourceLocationEntry_keys_nodup (fmtr : EventFormatter) (ev : Event) :
    ((sourceLocationEntry fmtr ev).map Prod.fst).Nodup := by
  unfold sourceLocationEntry
  split
  · split <;> simp
  · simp

theorem disjoint_of_forall_mem {l₁ l₂ S₁ S₂ : List String}
    (h₁ : ∀ a ∈ l₁, a ∈ S₁) (h₂ : ∀ a ∈ l₂, a ∈ S₂) (hS : ∀ a ∈ S₁, a ∉ S₂) :
    l₁.Disjoint l₂ := by
  intro a ha hb
  exact hS _ (h₁ _ ha) (h₂ _ hb)

/-! ### Supporting lemmas on camel-casing and severity parsing -/

theorem splitSegs_no_sep {cs : List Char} (h : ∀ c ∈ cs, isSepChar c = false) :
    splitSegs cs = [cs] := by
  induction cs with
  | nil => rfl
  | cons c rest ih =>
    have hc : isSepChar c = false := h c (List.mem_cons_self c rest)
    have hr := ih (fun x hx => h x (List.mem_cons_of_mem c hx))
    simp [splitSegs, hc, hr]

theorem charLower_of_not_upper {c : Char} (h : c.isUpper = false) : charLower c = c := by
  simp [charLower, h]

theorem toCamelCase_of_camel {s : String} (h : isCamelCaseKey s = true) : toCamelCase s = s := by
  obtain ⟨data⟩ := s
  simp only [isCamelCaseKey, Bool.and_eq_true] at h
  obtain ⟨h1, h2⟩ := h
  have hsep : ∀ c ∈ data, isSepChar c = false := by
    intro c hc
    simpa using List.all_eq_true.mp h1 c hc
  show String.mk (camelChars data) = String.mk data
  unfold camelChars
  rw [splitSegs_no_sep hsep]
  cases data with
  | nil => rfl
  | cons c cs =>
    have hup : c.isUpper = false := by simpa using h2
    simp [lowerFirst, charLower_of_not_upper hup]

theorem parseSeverity_unrecognized {s : String}
    (h : lowerString s ∉ (["default", "debug", "info", "notice", "warning", "error",
      "critical", "alert", "emergency"] : List String)) :
    parseSeverity s = LogSeverity.default := by
  unfold parseSeverity
  simp only [List.mem_cons, List.not_mem_nil, or_false, not_or] at h
  obtain ⟨h1, h2, h3, h4, h5, h6, h7, h8, h9⟩ := h
  simp [h1, h2, h3, h4, h5, h6, h7, h8, h9]

/-! ### Supporting lemmas on the optional document parts -/

theorem spanEntriesOf_keys_nodup (r : Option Span) (sc : List Span) :
    ((spanEntriesOf r sc).map Prod.fst).Nodup := by
  unfold spanEntriesOf
  rcases r with _ | s
  · rcases h : (sc.map serializeSpan).getLast? with _ | last <;>
      rcases h2 : (sc.map serializeSpan).isEmpty with _ | _ <;>
        simp [h, h2] <;> decide
  · rcases h2 : (sc.map serializeSpan).isEmpty with _ | _ <;> simp [h2] <;> decide

theorem traceEntriesOf_keys_nodup (cfg : Option CloudTraceConfiguration) (r : Option Span)
    (oc : Option SpanContext) : ((traceEntriesOf cfg r oc).map Prod.fst).Nodup := by
  unfold traceEntriesOf
  rcases r with _ | s
  · simp
  rcases cfg with _ | config
  · simp
  rcases hot : s.otel with _ | od
  · simp [hot]
  rcases hp : od.parent_cx with _ | pc
  · rcases hq : spanIdResolution od oc with _ | i <;> simp [hot, hp, hq]
  · rcases hq : spanIdResolution od oc with _ | i <;>
      rcases hs : pc.sampled with _ | _ <;> simp [hot, hp, hq, hs] <;> decide

theorem assembleDocument_keys (fmtr : EventFormatter) (span : Option Span) (scope : List Span)
    (oc : Option SpanContext) (ev : Event) (time : String) :
    (assembleDocument fmtr span scope oc ev time).map Prod.fst =
      ["severity", "time", "target"] ++ fieldTopKeys ev
      ++ (httpEntry (routeFields (eraseKey (collectFields ev) "severity"))).map Prod.fst
      ++ (labelsEntry (routeFields (eraseKey (collectFields ev) "severity"))).map Prod.fst
      ++ (sourceLocationEntry fmtr ev).map Prod.fst
      ++ (spanEntriesOf span scope).map Prod.fst
      ++ (traceEntriesOf fmtr.cloud_trace_configuration span oc).map Prod.fst := by
  unfold assembleDocument fieldTopKeys
  simp [List.map_append, routeFields_entries, flatMap_stepEntries_keys, List.append_assoc]

/-! ### Supporting lemmas on the fault model -/

theorem foldlM_emitE_noFault (t : String) (l : List (String × Json)) :
    ∀ acc, l.foldlM (emitE (noFaults t)) acc = Except.ok (acc ++ l) := by
  induction l with
  | nil =>
    intro acc
    show Except.ok acc = Except.ok (acc ++ [])
    rw [List.append_nil]
  | cons kv rest ih =>
    intro acc
    have h1 : (kv :: rest).foldlM (emitE (noFaults t)) acc
        = rest.foldlM (emitE (noFaults t)) (acc ++ [kv]) := rfl
    rw [h1, ih (acc ++ [kv])]
    simp

theorem formatEventInner_noFaults (fmtr : EventFormatter) (ctx : FmtContext) (ev : Event)
    (t : String) :
    formatEventInner fmtr ctx ev (noFaults t) = Except.ok (documentOf fmtr ctx ev t) := by
  have h := foldlM_emitE_noFault t (documentOf fmtr ctx ev t) []
  calc formatEventInner fmtr ctx ev (noFaults t)
      = (documentOf fmtr ctx ev t).foldlM (emitE (noFaults t)) [] >>= fun entries =>
          Except.ok entries := rfl
    _ = Except.ok (documentOf fmtr ctx ev t) := by rw [h]; rfl

/-! ### Claim theorems -/

/-- C1: for every event with no field named `severity`, the emitted severity
equals the fixed table lookup of the instrumentation level (trace→DEBUG,
debug→DEBUG, info→INFO, warn→WARNING, error→ERROR); for every event that
carries a `severity` field, the emitted severity equals that field value
parsed case-insensitively into the severity enumeration, regardless of the
instrumentation level, with an unrecognized string resolving to DEFAULT and
never to an error. -/
theorem severity_mapper_contract :
    (∀ ev : Event, List.lookup "severity" (collectFields ev) = none →
        severityOf ev = severityFromLevel ev.level) ∧
    (∀ (ev : Event) (v : Json), List.lookup "severity" (collectFields ev) = some v →
        severityOf ev = severityFromJson v) ∧
    (∀ (ev : Event) (l₁ l₂ : Level) (v : Json),
        List.lookup "severity" (collectFields ev) = some v →
        severityOf { ev with level := l₁ } = severityOf { ev with level := l₂ }) ∧
    (∀ s : String, severityFromJson (Json.str s) = parseSeverity s) ∧
    (∀ s₁ s₂ : String, lowerString s₁ = lowerString s₂ → parseSeverity s₁ = parseSeverity s₂) ∧
    (∀ s : String,
        lowerString s ∉ (["default", "debug", "info", "notice", "warning", "error",
          "critical", "alert", "emergency"] : List String) →
        parseSeverity s = LogSeverity.default) ∧
    (severityFromLevel Level.trace = LogSeverity.debug ∧
     severityFromLevel Level.debug = LogSeverity.debug ∧
     severityFromLevel Level.info = LogSeverity.info ∧
     severityFromLevel Level.warn = LogSeverity.warning ∧
     severityFromLevel Level.error = LogSeverity.error) ∧
    (∀ (fmtr : EventFormatter) (ctx : FmtContext) (ev : Event) (time : String),
        ("severity", Json.str (severityString (severityOf ev))) ∈ documentOf fmtr ctx ev time) := by
  refine ⟨?_, ?_, ?_, ?_, ?_, ?_, ⟨rfl, rfl, rfl, rfl, rfl⟩, ?_⟩
  · intro ev h
    unfold severityOf
    rw [h]
  · intro ev v h
    unfold severityOf
    rw [h]
  · intro ev l₁ l₂ v h
    have h₁ : List.lookup "severity" (collectFields { ev with level := l₁ }) = some v := h
    have h₂ : List.lookup "severity" (collectFields { ev with level := l₂ }) = some v := h
    unfold severityOf
    rw [h₁, h₂]
  · intro s
    rfl
  · intro s₁ s₂ h
    unfold parseSeverity
    rw [h]
  · intro s h
    exact parseSeverity_unrecognized h
  · intro fmtr ctx ev time
    unfold documentOf assembleDocument
    simp

/-- C1 witness: the table lookup at level `warn`, the override at a
differently-cased string, and the unrecognized-string default, each via
`severity_mapper_contract` at concrete inputs. -/
theorem severity_mapper_contract_witness :
    severityOf ⟨Level.warn, "t", none, none, none, []⟩ = LogSeverity.warning ∧
    severityOf ⟨Level.info, "t", none, none, none, [("severity", FieldInput.str "Alert")]⟩
      = LogSeverity.alert ∧
    parseSeverity "bogus" = LogSeverity.default := by
  refine ⟨?_, ?_, ?_⟩
  · rw [severity_mapper_contract.1 ⟨Level.warn, "t", none, none, none, []⟩ rfl]
    rfl
  · rw [severity_mapper_contract.2.1 ⟨Level.info, "t", none, none, none,
      [("severity", FieldInput.str "Alert")]⟩ (Json.str "Alert") rfl]
    decide
  · exact severity_mapper_contract.2.2.2.2.2.1 "bogus" (by decide)

/-- C7: a field recorded as a non-finite floating-point number (NaN or
either infinity) is stored as exactly the number zero; a finite
floating-point value is stored as-is. -/
theorem nonfinite_float_zero :
    (∀ (m : List (String × Json)) (k : String),
        recordField m k (FieldInput.f64 F64.nan)
          = mapInsert m k (Json.num (JNumber.ofInt 0))) ∧
    (∀ (m : List (String × Json)) (k : String),
        recordField m k (FieldInput.f64 F64.posInf)
          = mapInsert m k (Json.num (JNumber.ofInt 0))) ∧
    (∀ (m : List (String × Json)) (k : String),
        recordField m k (FieldInput.f64 F64.negInf)
          = mapInsert m k (Json.num (JNumber.ofInt 0))) ∧
    (∀ (m : List (String × Json)) (k : String) (q : Rat),
        recordField m k (FieldInput.f64 (F64.finite q))
          = mapInsert m k (Json.num (JNumber.ofFloat q))) :=
  ⟨fun _ _ => rfl, fun _ _ => rfl, fun _ _ => rfl, fun _ _ _ => rfl⟩

/-- C9 counterexample: a debug-rendered field named `Message` is stored
under `Message`, not under the canonical lowercase key `message`; the Rust
`match` on the field name is case-sensitive. -/
theorem message_casing_counterexample :
    collectFields ⟨Level.info, "t", none, none, none, [("Message", FieldInput.debug "hi")]⟩
      = [("Message", Json.str "hi")] ∧
    List.lookup "message"
      (collectFields ⟨Level.info, "t", none, none, none, [("Message", FieldInput.debug "hi")]⟩)
      = none :=
  ⟨rfl, rfl⟩

/-- C9 (amended): a debug-rendered field named exactly `message` (lowercase)
is stored under `message`; a debug-rendered field with any other name (not
carrying a `log.` or `event.` metadata prefix) is stored under its original,
unaltered name. -/
theorem message_field_exact_case :
    (∀ (m : List (String × Json)) (s : String),
        recordField m "message" (FieldInput.debug s) = mapInsert m "message" (Json.str s)) ∧
    (∀ (m : List (String × Json)) (name s : String),
        name ≠ "message" → strStartsWith name "log." = false →
        strStartsWith name "event." = false →
        recordField m name (FieldInput.debug s) = mapInsert m name (Json.str s)) := by
  constructor
  · intro m s
    rfl
  · intro m name s h1 h2 h3
    simp [recordField, h1, h2, h3]

/-- C9 witness: `message_field_exact_case` applied to the field name
`Message` at a concrete map. -/
theorem message_field_exact_case_witness :
    recordField [] "Message" (FieldInput.debug "hi") = [("Message", Json.str "hi")] := by
  rw [message_field_exact_case.2 [] "Message" "hi" (by decide) (by decide) (by decide)]
  rfl

/-- C10: the key camel-casing transform is a no-op on every key already in
camel case, and the router applies it to keys only: an `other`-arm field is
emitted with camel-cased key and its value untouched. -/
theorem camel_case_noop :
    (∀ s : String, isCamelCaseKey s = true → toCamelCase s = s) ∧
    (∀ kv : String × Json, routeArmOf kv.1 = RouteArm.other →
        stepEntries kv = [(toCamelCase kv.1, kv.2)]) := by
  constructor
  · intro s h
    exact toCamelCase_of_camel h
  · intro kv h
    simp [stepEntries, h]

/-- C10 witness: `camel_case_noop` at a concrete camel-case key and a
concrete routed field. -/
theorem camel_case_noop_witness :
    toCamelCase "fooBar9" = "fooBar9" ∧
    stepEntries ("foo_key", Json.bool true) = [(toCamelCase "foo_key", Json.bool true)] := by
  constructor
  · exact camel_case_noop.1 "fooBar9" (by decide)
  · exact camel_case_noop.2 ("foo_key", Json.bool true) (by decide)

/-- C2 counterexample: the collected field `severity` matches none of the
four routing patterns, yet its value is consumed by the severity mapper and
is never emitted unchanged as a top-level entry: the document carries the
parsed severity `WARNING` instead of the field value `warning`. -/
theorem severity_field_not_routed_counterexample :
    ("severity", Json.str "warning")
      ∈ collectFields
          ⟨Level.info, "app", none, none, none, [("severity", FieldInput.str "warning")]⟩ ∧
    isSpecialKey "severity" = false ∧
    toCamelCase "severity" = "severity" ∧
    ¬ (("severity", Json.str "warning")
        ∈ documentOf ⟨false, none⟩ ⟨fun _ => none, none, [], none⟩
            ⟨Level.info, "app", none, none, none, [("severity", FieldInput.str "warning")]⟩
            "T") := by
  refine ⟨?_, by decide, by decide, ?_⟩
  · show ("severity", Json.str "warning") ∈ [("severity", Json.str "warning")]
    exact List.mem_singleton.mpr rfl
  · intro hmem
    have hdoc : documentOf ⟨false, none⟩ ⟨fun _ => none, none, [], none⟩
        ⟨Level.info, "app", none, none, none, [("severity", FieldInput.str "warning")]⟩ "T"
        = [("severity", Json.str "WARNING"), ("time", Json.str "T"),
           ("target", Json.str "app")] := rfl
    rw [hdoc] at hmem
    rcases List.mem_cons.mp hmem with h | hmem
    · exact absurd (Json.str.inj (congrArg Prod.snd h)) (by decide)
    rcases List.mem_cons.mp hmem with h | hmem
    · exact absurd (congrArg Prod.fst h) (by decide)
    rcases List.mem_cons.mp hmem with h | hmem
    · exact absurd (congrArg Prod.fst h) (by decide)
    · exact absurd hmem (List.not_mem_nil _)

/-- C2 (amended): every collected field whose key matches none of the four
routing patterns of §4.3 and is not the reserved severity-override key is
emitted as a top-level entry with camel-cased key and unchanged value. -/
theorem routed_top_level_fields (fmtr : EventFormatter) (ctx : FmtContext) (ev : Event)
    (time : String) (k : String) (v : Json)
    (hmem : (k, v) ∈ collectFields ev)
    (hsev : k ≠ "severity")
    (hspec : isSpecialKey k = false) :
    (toCamelCase k, v) ∈ documentOf fmtr ctx ev time := by
  have harm : routeArmOf k = RouteArm.other := by
    unfold isSpecialKey at hspec
    cases h : routeArmOf k <;> rw [h] at hspec <;> simp_all
  have hmem2 : (k, v) ∈ eraseKey (collectFields ev) "severity" := by
    unfold eraseKey
    refine List.mem_filter.mpr ⟨hmem, ?_⟩
    simpa using hsev
  exact mem_documentOf_of_mem_entries (mem_routeFields_entries hmem2 harm)

/-- C2 witness: `routed_top_level_fields` at a concrete snake-case field. -/
theorem routed_top_level_fields_witness :
    (toCamelCase "foo_bar", Json.num (JNumber.ofInt 3))
      ∈ documentOf ⟨false, none⟩ ⟨fun _ => none, none, [], none⟩
          ⟨Level.info, "app", none, none, none, [("foo_bar", FieldInput.i64 3)]⟩ "T" := by
  refine routed_top_level_fields ⟨false, none⟩ ⟨fun _ => none, none, [], none⟩
    ⟨Level.info, "app", none, none, none, [("foo_bar", FieldInput.i64 3)]⟩ "T"
    "foo_bar" (Json.num (JNumber.ofInt 3)) ?_ (by decide) (by decide)
  show _ ∈ [("foo_bar", Json.num (JNumber.ofInt 3))]
  exact List.mem_singleton.mpr rfl

/-- C3: when the event carries an explicit parent-span reference that the
registry cannot resolve, the formatter falls back to the ambient current
span: the resolved span is the ambient one, the whole document equals the
document of the same event without explicit parent, and when an ambient
current span exists its serialization is the emitted `span` entry. -/
theorem explicit_parent_fallback (fmtr : EventFormatter) (ctx : FmtContext) (ev : Event)
    (time : String) (id : Nat)
    (hp : ev.parent = some id) (hr : ctx.registry id = none) :
    resolvedSpan ctx ev = ctx.current ∧
    documentOf fmtr ctx ev time = documentOf fmtr ctx { ev with parent := none } time ∧
    (∀ s : Span, ctx.current = some s →
        ("span", serializeSpan s) ∈ documentOf fmtr ctx ev time) := by
  have hres : resolvedSpan ctx ev = ctx.current := by
    unfold resolvedSpan
    rw [hp]
    show (match ctx.registry id with
          | some s => some s
          | none => ctx.current) = ctx.current
    rw [hr]
  refine ⟨hres, ?_, ?_⟩
  · unfold documentOf
    rw [hres]
    rw [show resolvedSpan ctx { ev with parent := none } = ctx.current from rfl]
    exact (assembleDocument_parent_irrel fmtr ctx.current ctx.scope ctx.otelCurrent
      ev none time).symm
  · intro s hs
    have hmem : ("span", serializeSpan s) ∈ spanEntriesOf (resolvedSpan ctx ev) ctx.scope := by
      rw [hres, hs]
      unfold spanEntriesOf
      simp
    exact mem_documentOf_of_mem_span hmem

/-- C3 witness: `explicit_parent_fallback` at a concrete context whose
registry resolves nothing and whose ambient current span is `cur`. -/
theorem explicit_parent_fallback_witness :
    documentOf ⟨false, none⟩ ⟨fun _ => none, some ⟨"cur", [], none⟩, [], none⟩
        ⟨Level.info, "a", none, none, some 5, []⟩ "T"
      = documentOf ⟨false, none⟩ ⟨fun _ => none, some ⟨"cur", [], none⟩, [], none⟩
          ⟨Level.info, "a", none, none, none, []⟩ "T" ∧
    ("span", serializeSpan ⟨"cur", [], none⟩)
      ∈ documentOf ⟨false, none⟩ ⟨fun _ => none, some ⟨"cur", [], none⟩, [], none⟩
          ⟨Level.info, "a", none, none, some 5, []⟩ "T" := by
  have h := explicit_parent_fallback ⟨false, none⟩
    ⟨fun _ => none, some ⟨"cur", [], none⟩, [], none⟩
    ⟨Level.info, "a", none, none, some 5, []⟩ "T" 5 rfl rfl
  exact ⟨h.2.1, h.2.2 ⟨"cur", [], none⟩ rfl⟩

/-- C6: every internal failure (timestamp rendering, serialization of an
entry or of the span context, map finalization, newline write) is returned
to the caller as the single opaque format-failed signal with nothing
reaching the output sink; otherwise exactly one complete JSON line — the
serialized document followed by one newline — is emitted; in particular a
fault-free call emits the serialization of `documentOf`. -/
theorem formatting_failure_all_or_nothing :
    (∀ (fmtr : EventFormatter) (ctx : FmtContext) (ev : Event) (f : Faults),
        formatEventBoundary fmtr ctx ev f = (Except.error (), none) ∨
        ∃ doc, formatEventInner fmtr ctx ev f = Except.ok doc ∧
          formatEventBoundary fmtr ctx ev f
            = (Except.ok (), some (renderJson (Json.obj doc) ++ "\n"))) ∧
    (∀ (fmtr : EventFormatter) (ctx : FmtContext) (ev : Event) (t : String),
        formatEventBoundary fmtr ctx ev (noFaults t)
          = (Except.ok (), some (renderJson (Json.obj (documentOf fmtr ctx ev t)) ++ "\n"))) := by
  constructor
  · intro fmtr ctx ev f
    unfold formatEventBoundary
    cases h : formatEventInner fmtr ctx ev f with
    | error e => left; rfl
    | ok entries =>
      cases hn : f.newlineFault with
      | true => left; rfl
      | false =>
        right
        exact ⟨entries, rfl, rfl⟩
  · intro fmtr ctx ev t
    unfold formatEventBoundary
    rw [formatEventInner_noFaults]
    rfl

/-- Membership of the span-id entry in the trace block once the span-id
fallback chain has produced an id. -/
theorem spanId_mem_traceEntriesOf {config : CloudTraceConfiguration} {s : Span} {od : OtelData}
    {oc : Option SpanContext} {i : String}
    (hot : s.otel = some od) (hq : spanIdResolution od oc = some i) :
    ("logging.googleapis.com/spanId", Json.str i)
      ∈ traceEntriesOf (some config) (some s) oc := by
  unfold traceEntriesOf
  simp only [hot, hq]
  simp [List.mem_append]

/-- C5: with trace correlation enabled and trace-context data present, the
emitted span id is the builder-assigned identifier when one exists;
otherwise it is the ambient current OpenTelemetry span identifier exactly
when that ambient span is locally created, and a remote ambient span never
contributes a span id. -/
theorem trace_span_id_resolution (fmtr : EventFormatter) (config : CloudTraceConfiguration)
    (ctx : FmtContext) (ev : Event) (time : String) (s : Span) (od : OtelData)
    (hcfg : fmtr.cloud_trace_configuration = some config)
    (hres : resolvedSpan ctx ev = some s)
    (hot : s.otel = some od) :
    (∀ i, od.builder_span_id = some i →
        ("logging.googleapis.com/spanId", Json.str i) ∈ documentOf fmtr ctx ev time) ∧
    (∀ c, od.builder_span_id = none → ctx.otelCurrent = some c → c.is_remote = false →
        ("logging.googleapis.com/spanId", Json.str c.span_id) ∈ documentOf fmtr ctx ev time) ∧
    (∀ c, od.builder_span_id = none → ctx.otelCurrent = some c → c.is_remote = true →
        spanIdResolution od ctx.otelCurrent = none ∧
        ∀ kv ∈ traceEntriesOf fmtr.cloud_trace_configuration (resolvedSpan ctx ev)
          ctx.otelCurrent, kv.1 ≠ "logging.googleapis.com/spanId") := by
  refine ⟨?_, ?_, ?_⟩
  · intro i hb
    have hq : spanIdResolution od ctx.otelCurrent = some i := by
      unfold spanIdResolution
      rw [hb]
    apply mem_documentOf_of_mem_trace
    rw [hcfg, hres]
    exact spanId_mem_traceEntriesOf hot hq
  · intro c hb hoc hrem
    have hq : spanIdResolution od ctx.otelCurrent = some c.span_id := by
      simp [spanIdResolution, hb, hoc, hrem]
    apply mem_documentOf_of_mem_trace
    rw [hcfg, hres]
    exact spanId_mem_traceEntriesOf hot hq
  · intro c hb hoc hrem
    have hq : spanIdResolution od ctx.otelCurrent = none := by
      simp [spanIdResolution, hb, hoc, hrem]
    refine ⟨hq, ?_⟩
    intro kv hkv
    rw [hcfg, hres] at hkv
    rcases hp : od.parent_cx with _ | pc
    · simp [traceEntriesOf, hot, hp, hq] at hkv
    · rcases hs : pc.sampled with _ | _
      · simp [traceEntriesOf, hot, hp, hq, hs] at hkv
        rw [hkv]
        simp
      · simp [traceEntriesOf, hot, hp, hq, hs] at hkv
        rcases hkv with rfl | rfl <;> simp

/-- C5 witness: `trace_span_id_resolution` at a span whose builder id is not
yet assigned and a local (non-remote) ambient OpenTelemetry span `s2`. -/
theorem trace_span_id_resolution_witness :
    ("logging.googleapis.com/spanId", Json.str "s2")
      ∈ documentOf ⟨false, some ⟨"p"⟩⟩
          ⟨fun _ => none, some ⟨"sp", [], some ⟨some ⟨"tid", "sid", true, false⟩, none⟩⟩, [],
            some ⟨"t2", "s2", true, false⟩⟩
          ⟨Level.info, "a", none, none, none, []⟩ "T" :=
  (trace_span_id_resolution ⟨false, some ⟨"p"⟩⟩ ⟨"p"⟩
      ⟨fun _ => none, some ⟨"sp", [], some ⟨some ⟨"tid", "sid", true, false⟩, none⟩⟩, [],
        some ⟨"t2", "s2", true, false⟩⟩
      ⟨Level.info, "a", none, none, none, []⟩ "T"
      ⟨"sp", [], some ⟨some ⟨"tid", "sid", true, false⟩, none⟩⟩
      ⟨some ⟨"tid", "sid", true, false⟩, none⟩
      rfl rfl rfl).2.1 ⟨"t2", "s2", true, false⟩ rfl rfl rfl

/-- C4: with no project id configured the trace correlator contributes no
entries at all; and, provided no collected field key camel-cases to one of
the three reserved trace keys (their slash character cannot appear in a
`tracing` macro field name), none of `logging.googleapis.com/trace`,
`logging.googleapis.com/spanId`, `logging.googleapis.com/trace_sampled`
occurs among the output keys, whatever spans and trace-context data are
present. -/
theorem no_trace_fields_without_project (fmtr : EventFormatter) (ctx : FmtContext) (ev : Event)
    (time : String)
    (hcfg : fmtr.cloud_trace_configuration = none) :
    traceEntriesOf fmtr.cloud_trace_configuration (resolvedSpan ctx ev) ctx.otelCurrent = [] ∧
    ((∀ kv ∈ collectFields ev,
        toCamelCase kv.1 ∉ (["logging.googleapis.com/trace", "logging.googleapis.com/spanId",
          "logging.googleapis.com/trace_sampled"] : List String)) →
      ∀ key ∈ (documentOf fmtr ctx ev time).map Prod.fst,
        key ∉ (["logging.googleapis.com/trace", "logging.googleapis.com/spanId",
          "logging.googleapis.com/trace_sampled"] : List String)) := by
  have htr : traceEntriesOf fmtr.cloud_trace_configuration (resolvedSpan ctx ev)
      ctx.otelCurrent = [] := by
    rw [hcfg]
    cases resolvedSpan ctx ev <;> rfl
  refine ⟨htr, ?_⟩
  intro hfields key hkey
  unfold documentOf at hkey
  rw [assembleDocument_keys] at hkey
  simp only [List.mem_append] at hkey
  rcases hkey with ((((((hkey | hkey) | hkey) | hkey) | hkey) | hkey) | hkey)
  · fin_cases hkey <;> decide
  · unfold fieldTopKeys at hkey
    rcases List.mem_filterMap.mp hkey with ⟨kv, hkv, hr⟩
    have hkv2 : kv ∈ collectFields ev := (List.mem_filter.mp hkv).1
    unfold routedTopKey at hr
    cases harm : routeArmOf kv.1 <;> rw [harm] at hr
    · exact absurd hr (by simp)
    · exact absurd hr (by simp)
    · rw [← Option.some.inj hr]
      decide
    · rw [← Option.some.inj hr]
      decide
    · rw [← Option.some.inj hr]
      exact hfields kv hkv2
  · have hx := httpEntry_keys_sub _ _ hkey
    simp only [List.mem_singleton] at hx
    rw [hx]
    decide
  · have hx := labelsEntry_keys_sub _ _ hkey
    simp only [List.mem_singleton] at hx
    rw [hx]
    decide
  · have hx := sourceLocationEntry_keys_sub _ _ _ hkey
    simp only [List.mem_singleton] at hx
    rw [hx]
    decide
  · have hx := spanEntriesOf_keys_sub _ _ _ hkey
    rcases List.mem_cons.mp hx with hx | hx
    · rw [hx]; decide
    · simp only [List.mem_singleton] at hx
      rw [hx]; decide
  · rw [htr] at hkey
    simp at hkey

/-- C4 witness: `no_trace_fields_without_project` at a configuration without
project id but with a span carrying full trace-context data, a remote
ambient OpenTelemetry span and one ordinary field. -/
theorem no_trace_fields_without_project_witness :
    ("logging.googleapis.com/trace" : String)
      ∉ (documentOf ⟨true, none⟩
          ⟨fun _ => none, some ⟨"sp", [], some ⟨some ⟨"tid", "sid", true, false⟩, some "bid"⟩⟩,
            [⟨"sp", [], some ⟨some ⟨"tid", "sid", true, false⟩, some "bid"⟩⟩],
            some ⟨"t2", "s2", true, false⟩⟩
          ⟨Level.error, "a", some "f.rs", some 3, none, [("foo", FieldInput.str "x")]⟩
          "T").map Prod.fst := by
  intro hmem
  have h := no_trace_fields_without_project ⟨true, none⟩
    ⟨fun _ => none, some ⟨"sp", [], some ⟨some ⟨"tid", "sid", true, false⟩, some "bid"⟩⟩,
      [⟨"sp", [], some ⟨some ⟨"tid", "sid", true, false⟩, some "bid"⟩⟩],
      some ⟨"t2", "s2", true, false⟩⟩
    ⟨Level.error, "a", some "f.rs", some 3, none, [("foo", FieldInput.str "x")]⟩ "T" rfl
  refine h.2 ?_ _ hmem (by decide)
  intro kv hkv
  have hkv2 : kv ∈ [("foo", Json.str "x")] := hkv
  rw [List.mem_singleton.mp hkv2]
  decide

/-- Generic uniqueness of the document key sequence: three fixed leading
keys, the routed field keys (assumed mutually distinct and avoiding every
reserved key), and the optional single-key blocks, each drawn from its own
reserved-key alphabet. -/
theorem nodup_doc_keys_general (L Hk Lak Srk Spk Trk : List String)
    (hL : L.Nodup) (hLr : ∀ k ∈ L, k ∉ reservedKeys)
    (hH : ∀ k ∈ Hk, k ∈ (["httpRequest"] : List String)) (hHn : Hk.Nodup)
    (hLa : ∀ k ∈ Lak, k ∈ (["logging.googleapis.com/labels"] : List String)) (hLan : Lak.Nodup)
    (hSr : ∀ k ∈ Srk, k ∈ (["logging.googleapis.com/sourceLocation"] : List String))
    (hSrn : Srk.Nodup)
    (hSp : ∀ k ∈ Spk, k ∈ (["span", "spans"] : List String)) (hSpn : Spk.Nodup)
    (hTr : ∀ k ∈ Trk, k ∈ (["logging.googleapis.com/trace", "logging.googleapis.com/spanId",
      "logging.googleapis.com/trace_sampled"] : List String)) (hTrn : Trk.Nodup) :
    (["severity", "time", "target"] ++ L ++ Hk ++ Lak ++ Srk ++ Spk ++ Trk).Nodup := by
  have s5 : ∀ k ∈ Spk ++ Trk,
      k ∈ (["span", "spans", "logging.googleapis.com/trace", "logging.googleapis.com/spanId",
        "logging.googleapis.com/trace_sampled"] : List String) := by
    intro k hk
    rcases List.mem_append.mp hk with h | h
    · exact (by decide : ∀ x ∈ (["span", "spans"] : List String),
        x ∈ (["span", "spans", "logging.googleapis.com/trace", "logging.googleapis.com/spanId",
          "logging.googleapis.com/trace_sampled"] : List String)) k (hSp k h)
    · exact (by decide : ∀ x ∈ (["logging.googleapis.com/trace",
        "logging.googleapis.com/spanId", "logging.googleapis.com/trace_sampled"] : List String),
        x ∈ (["span", "spans", "logging.googleapis.com/trace", "logging.googleapis.com/spanId",
          "logging.googleapis.com/trace_sampled"] : List String)) k (hTr k h)
  have t5 : (Spk ++ Trk).Nodup :=
    List.Nodup.append hSpn hTrn (disjoint_of_forall_mem hSp hTr (by decide))
  have s4 : ∀ k ∈ Srk ++ (Spk ++ Trk),
      k ∈ (["logging.googleapis.com/sourceLocation", "span", "spans",
        "logging.googleapis.com/trace", "logging.googleapis.com/spanId",
        "logging.googleapis.com/trace_sampled"] : List String) := by
    intro k hk
    rcases List.mem_append.mp hk with h | h
    · exact (by decide : ∀ x ∈ (["logging.googleapis.com/sourceLocation"] : List String),
        x ∈ (["logging.googleapis.com/sourceLocation", "span", "spans",
          "logging.googleapis.com/trace", "logging.googleapis.com/spanId",
          "logging.googleapis.com/trace_sampled"] : List String)) k (hSr k h)
    · exact (by decide : ∀ x ∈ (["span", "spans", "logging.googleapis.com/trace",
        "logging.googleapis.com/spanId", "logging.googleapis.com/trace_sampled"] : List String),
        x ∈ (["logging.googleapis.com/sourceLocation", "span", "spans",
          "logging.googleapis.com/trace", "logging.googleapis.com/spanId",
          "logging.googleapis.com/trace_sampled"] : List String)) k (s5 k h)
  have t4 : (Srk ++ (Spk ++ Trk)).Nodup :=
    List.Nodup.append hSrn t5 (disjoint_of_forall_mem hSr s5 (by decide))
  have s3 : ∀ k ∈ Lak ++ (Srk ++ (Spk ++ Trk)),
      k ∈ (["logging.googleapis.com/labels", "logging.googleapis.com/sourceLocation", "span",
        "spans", "logging.googleapis.com/trace", "logging.googleapis.com/spanId",
        "logging.googleapis.com/trace_sampled"] : List String) := by
    intro k hk
    rcases List.mem_append.mp hk with h | h
    · exact (by decide : ∀ x ∈ (["logging.googleapis.com/labels"] : List String),
        x ∈ (["logging.googleapis.com/labels", "logging.googleapis.com/sourceLocation", "span",
          "spans", "logging.googleapis.com/trace", "logging.googleapis.com/spanId",
          "logging.googleapis.com/trace_sampled"] : List String)) k (hLa k h)
    · exact (by decide : ∀ x ∈ (["logging.googleapis.com/sourceLocation", "span", "spans",
        "logging.googleapis.com/trace", "logging.googleapis.com/spanId",
        "logging.googleapis.com/trace_sampled"] : List String),
        x ∈ (["logging.googleapis.com/labels", "logging.googleapis.com/sourceLocation", "span",
          "spans", "logging.googleapis.com/trace", "logging.googleapis.com/spanId",
          "logging.googleapis.com/trace_sampled"] : List String)) k (s4 k h)
  have t3 : (Lak ++ (Srk ++ (Spk ++ Trk))).Nodup :=
    List.Nodup.append hLan t4 (disjoint_of_forall_mem hLa s4 (by decide))
  have s2 : ∀ k ∈ Hk ++ (Lak ++ (Srk ++ (Spk ++ Trk))),
      k ∈ (["httpRequest", "logging.googleapis.com/labels",
        "logging.googleapis.com/sourceLocation", "span", "spans",
        "logging.googleapis.com/trace", "logging.googleapis.com/spanId",
        "logging.googleapis.com/trace_sampled"] : List String) := by
    intro k hk
    rcases List.mem_append.mp hk with h | h
    · exact (by decide : ∀ x ∈ (["httpRequest"] : List String),
        x ∈ (["httpRequest", "logging.googleapis.com/labels",
          "logging.googleapis.com/sourceLocation", "span", "spans",
          "logging.googleapis.com/trace", "logging.googleapis.com/spanId",
          "logging.googleapis.com/trace_sampled"] : List String)) k (hH k h)
    · exact (by decide : ∀ x ∈ (["logging.googleapis.com/labels",
        "logging.googleapis.com/sourceLocation", "span", "spans",
        "logging.googleapis.com/trace", "logging.googleapis.com/spanId",
        "logging.googleapis.com/trace_sampled"] : List String),
        x ∈ (["httpRequest", "logging.googleapis.com/labels",
          "logging.googleapis.com/sourceLocation", "span", "spans",
          "logging.googleapis.com/trace", "logging.googleapis.com/spanId",
          "logging.googleapis.com/trace_sampled"] : List String)) k (s3 k h)
  have t2 : (Hk ++ (Lak ++ (Srk ++ (Spk ++ Trk)))).Nodup :=
    List.Nodup.append hHn t3 (disjoint_of_forall_mem hH s3 (by decide))
  have t1 : (L ++ (Hk ++ (Lak ++ (Srk ++ (Spk ++ Trk))))).Nodup := by
    refine List.Nodup.append hL t2 ?_
    intro a ha hb
    exact hLr a ha ((by decide : ∀ x ∈ (["httpRequest", "logging.googleapis.com/labels",
      "logging.googleapis.com/sourceLocation", "span", "spans",
      "logging.googleapis.com/trace", "logging.googleapis.com/spanId",
      "logging.googleapis.com/trace_sampled"] : List String), x ∈ reservedKeys) a (s2 a hb))
  have t0 : ((["severity", "time", "target"] : List String)
      ++ (L ++ (Hk ++ (Lak ++ (Srk ++ (Spk ++ Trk)))))).Nodup := by
    refine List.Nodup.append (by decide) t1 ?_
    intro a ha hb
    rcases List.mem_append.mp hb with h | h
    · exact hLr a h ((by decide : ∀ x ∈ (["severity", "time", "target"] : List String),
        x ∈ reservedKeys) a ha)
    · have hx := s2 a h
      fin_cases ha <;> exact absurd hx (by decide)
  simpa [List.append_assoc] using t0

/-- C8 (amended): the serialized output document has pairwise distinct
top-level keys provided the routed field keys are pairwise distinct and none
of them collides with a reserved key. -/
theorem output_keys_nodup (fmtr : EventFormatter) (ctx : FmtContext) (ev : Event)
    (time : String)
    (h1 : (fieldTopKeys ev).Nodup)
    (h2 : ∀ k ∈ fieldTopKeys ev, k ∉ reservedKeys) :
    ((documentOf fmtr ctx ev time).map Prod.fst).Nodup := by
  unfold documentOf
  rw [assembleDocument_keys]
  exact nodup_doc_keys_general (fieldTopKeys ev) _ _ _ _ _ h1 h2
    (httpEntry_keys_sub _) (httpEntry_keys_nodup _)
    (labelsEntry_keys_sub _) (labelsEntry_keys_nodup _)
    (sourceLocationEntry_keys_sub _ _) (sourceLocationEntry_keys_nodup _ _)
    (spanEntriesOf_keys_sub _ _) (spanEntriesOf_keys_nodup _ _)
    (traceEntriesOf_keys_sub _ _ _) (traceEntriesOf_keys_nodup _ _ _)

/-- C8 counterexample: a caller field named `target` produces a second
`target` key next to the reserved one, so the output keys are not unique for
every event. -/
theorem output_keys_duplicate_counterexample :
    ¬ (((documentOf ⟨false, none⟩ ⟨fun _ => none, none, [], none⟩
        ⟨Level.info, "app", none, none, none, [("target", FieldInput.str "x")]⟩ "T").map
          Prod.fst).Nodup) := by
  decide

/-- C8 witness: `output_keys_nodup` at an event exercising every routing arm
(plain field, message, http-request, labels, insert-id), a span, a scope and
full trace-context data. -/
theorem output_keys_nodup_witness :
    ((documentOf ⟨true, some ⟨"p"⟩⟩
        ⟨fun _ => none,
          some ⟨"sp", [("foo", Json.str "b")], some ⟨some ⟨"tid", "sid", true, false⟩,
            some "bid"⟩⟩,
          [⟨"sp", [], none⟩], none⟩
        ⟨Level.error, "a", some "f.rs", some 3, none,
          [("foo_bar", FieldInput.i64 3), ("message", FieldInput.str "m"),
           ("http_request.status", FieldInput.u64 503), ("labels.x", FieldInput.str "y"),
           ("insert_id", FieldInput.str "i")]⟩ "T").map Prod.fst).Nodup := by
  apply output_keys_nodup
  · decide
  · decide

end TracingStackdriver
